import Mathlib

/-!
Verification of the Auto-parking-pygame repository.

The development shallowly embeds the simulation core:
* `AutoPark.PathFinder` models `src/pathfinding.py` (grid A* search).
  The literal float costs 1 and 1.414 and the heuristic constant 0.414 are
  represented exactly in milli-units (1000, 1414, 414), so every cost in this
  file is the source cost scaled by 1000.  The unbounded Python `while` loop is
  modelled with an explicit fuel argument: `none` means the loop was still
  running when the fuel ran out, `some r` means the Python function returned
  `r`.
* `AutoPark.Geom` and `AutoPark.Vehicle` model `src/utils.py` / `src/vehicle.py`.
  Real-valued quantities are rationals; the transcendental library calls
  (`math.cos`/`math.sin` of an angle in degrees, `math.degrees(math.atan2 ..)`
  and `math.sqrt`) are oracle parameters gathered in a `Trig` record, so every
  theorem quantifies over all possible values of those calls.
* `AutoPark.PSim` models the orchestrator of `src/parking.py` and
  `AutoPark.MSim` the self-contained orchestrator of `src/main.py`.
-/

namespace AutoPark

/-- Generic fold preservation: a predicate preserved by every step of a left
fold (for elements of the list) is preserved by the fold. -/
theorem foldl_preserve {α β : Type} {P : β → Prop} {f : β → α → β} :
    ∀ (l : List α) (b : β), (∀ x ∈ l, ∀ s, P s → P (f s x)) → P b →
      P (l.foldl f b)
  | [], _, _, hb => hb
  | x :: t, b, hstep, hb =>
    foldl_preserve t (f b x) (fun y hy s hs => hstep y (List.mem_cons_of_mem _ hy) s hs)
      (hstep x (List.mem_cons_self _ _) b hb)

/-- Association-list lookup with dictionary (first-match) semantics. -/
def alookup {κ α : Type} [DecidableEq κ] : List (κ × α) → κ → Option α
  | [], _ => none
  | (k, v) :: t, c => if k = c then some v else alookup t c

theorem alookup_mem {κ α : Type} [DecidableEq κ] :
    ∀ (l : List (κ × α)) (c : κ) (v : α), alookup l c = some v → (c, v) ∈ l
  | [], _, _, h => by simp [alookup] at h
  | (k, w) :: t, c, v, h => by
    by_cases hk : k = c
    · simp [alookup, hk] at h
      subst hk h
      exact List.mem_cons_self _ _
    · simp [alookup, hk] at h
      exact List.mem_cons_of_mem _ (alookup_mem t c v h)

/-- Insertion into a sorted list, with a `Bool` comparator (model of the
insertion point of a stable sort). -/
def orderedInsertB {α : Type} (le : α → α → Bool) (a : α) : List α → List α
  | [] => [a]
  | b :: l => if le a b then a :: b :: l else b :: orderedInsertB le a l

/-- Stable insertion sort with a `Bool` comparator.  For a total transitive
comparator the output of any stable sort is unique, so this models Python's
stable `list.sort`. -/
def insertionSortB {α : Type} (le : α → α → Bool) : List α → List α
  | [] => []
  | a :: l => orderedInsertB le a (insertionSortB le l)

theorem mem_orderedInsertB {α : Type} (le : α → α → Bool) (a x : α) :
    ∀ l : List α, x ∈ orderedInsertB le a l → x = a ∨ x ∈ l
  | [], h => by
    simp [orderedInsertB] at h
    exact Or.inl h
  | b :: l, h => by
    unfold orderedInsertB at h
    by_cases hle : le a b = true
    · rw [if_pos hle] at h
      rcases List.mem_cons.mp h with rfl | h
      · exact Or.inl rfl
      · exact Or.inr h
    · rw [if_neg hle] at h
      rcases List.mem_cons.mp h with rfl | h
      · exact Or.inr (List.mem_cons_self _ _)
      · rcases mem_orderedInsertB le a x l h with h1 | h1
        · exact Or.inl h1
        · exact Or.inr (List.mem_cons_of_mem _ h1)

theorem mem_insertionSortB {α : Type} (le : α → α → Bool) (x : α) :
    ∀ l : List α, x ∈ insertionSortB le l → x ∈ l
  | [], h => by simp [insertionSortB] at h
  | a :: l, h => by
    rcases mem_orderedInsertB le a x _ h with h1 | h1
    · simp [h1]
    · exact List.mem_cons_of_mem _ (mem_insertionSortB le x l h1)

theorem length_orderedInsertB {α : Type} (le : α → α → Bool) (a : α) :
    ∀ l : List α, (orderedInsertB le a l).length = l.length + 1
  | [] => rfl
  | b :: l => by
    by_cases hle : le a b <;>
      simp [orderedInsertB, hle, length_orderedInsertB le a l]

theorem length_insertionSortB {α : Type} (le : α → α → Bool) :
    ∀ l : List α, (insertionSortB le l).length = l.length
  | [] => rfl
  | a :: l => by
    simp [insertionSortB, length_orderedInsertB, length_insertionSortB le l]

/-- Axis-aligned rectangle, as `pygame.Rect(left, top, width, height)`. -/
structure Rect where
  left : Int
  top : Int
  width : Int
  height : Int
deriving DecidableEq, Repr

def Rect.right (r : Rect) : Int := r.left + r.width

def Rect.bottom (r : Rect) : Int := r.top + r.height

/-- Models `pygame.Rect.centerx` (integer floor division, as pygame computes it). -/
def Rect.centerx (r : Rect) : Int := r.left + Int.fdiv r.width 2

/-- Models `pygame.Rect.centery`. -/
def Rect.centery (r : Rect) : Int := r.top + Int.fdiv r.height 2

/-- A grid cell `(x, y)`, as the coordinate pairs of `pathfinding.py`. -/
abbrev Cell := Int × Int

namespace PathFinder

/-- The `PathFinder.__init__` data: window size and grid size
(`grid_size = 20` by default; `parking.py` uses the default). -/
structure PF where
  width : Nat
  height : Nat
  gridSize : Nat
deriving DecidableEq, Repr

/-- Models `self.grid_width = width // grid_size`. -/
def PF.gridWidth (p : PF) : Int := (p.width / p.gridSize : Nat)

/-- Models `self.grid_height = height // grid_size`. -/
def PF.gridHeight (p : PF) : Int := (p.height / p.gridSize : Nat)

/-- Models `PathFinder._is_valid_position`. -/
def isValidPosition (p : PF) (pos : Cell) : Bool :=
  decide (0 ≤ pos.1 ∧ pos.1 < p.gridWidth ∧ 0 ≤ pos.2 ∧ pos.2 < p.gridHeight)

/-- One obstacle's contribution to `PathFinder._create_obstacle_grid`: the
cell range covered by the rectangle (floor division by the grid size, clamped
to the grid), inflated by the 1-cell safety margin and re-clamped.  A cell of
the built grid is `True` exactly when some obstacle's double loop writes it. -/
def inflatedCovers (p : PF) (o : Rect) (c : Cell) : Bool :=
  let gs : Int := (p.gridSize : Int)
  let gw := p.gridWidth
  let gh := p.gridHeight
  let left := max 0 (Int.fdiv o.left gs)
  let right := min (gw - 1) (Int.fdiv o.right gs)
  let top := max 0 (Int.fdiv o.top gs)
  let bottom := min (gh - 1) (Int.fdiv o.bottom gs)
  decide (max 0 (top - 1) ≤ c.2 ∧ c.2 < min gh (bottom + 1 + 1) ∧
          max 0 (left - 1) ≤ c.1 ∧ c.1 < min gw (right + 1 + 1))

/-- Models `PathFinder._create_obstacle_grid`, as the characteristic function of the
built boolean grid. -/
def obstacleGrid (p : PF) (obstacles : List Rect) (c : Cell) : Bool :=
  obstacles.any (fun o => inflatedCovers p o c)

/-- Models `PathFinder._heuristic`, in milli-units:
`max(dx,dy) + 0.414*min(dx,dy)` scaled by 1000. -/
def heuristic (a b : Cell) : Nat :=
  let dx := (a.1 - b.1).natAbs
  let dy := (a.2 - b.2).natAbs
  1000 * max dx dy + 414 * min dx dy

/-- The neighbor offsets of the A* loop, in source order. -/
def dirs : List (Int × Int) :=
  [(0, 1), (1, 0), (0, -1), (-1, 0), (1, 1), (-1, 1), (1, -1), (-1, -1)]

/-- The mutable search state of `find_path`: the `heapq` priority queue
(entries `(f, position)`), the membership set `open_set_hash`, and the three
dictionaries. -/
structure AState where
  heap : List (Nat × Cell)
  openHash : List Cell
  cameFrom : List (Cell × Cell)
  gScore : List (Cell × Nat)
  fScore : List (Cell × Nat)
deriving Repr

/-- The total order used by `heapq` on entries `(f, (x, y))`: Python tuple
comparison, `f` first then the position lexicographically. -/
def entryLe (a b : Nat × Cell) : Bool :=
  decide (a.1 < b.1) ||
    (decide (a.1 = b.1) &&
      (decide (a.2.1 < b.2.1) || (decide (a.2.1 = b.2.1) && decide (a.2.2 ≤ b.2.2))))

/-- Models `heapq.heappop`: remove a minimal entry (the heap order is total and, with
one entry per position, antisymmetric on reachable heaps). -/
def popMin : List (Nat × Cell) → Option ((Nat × Cell) × List (Nat × Cell))
  | [] => none
  | e :: es =>
    match popMin es with
    | none => some (e, [])
    | some (m, rest) => if entryLe e m then some (e, es) else some (m, e :: rest)

theorem popMin_spec :
    ∀ (l : List (Nat × Cell)) (m : Nat × Cell) (rest : List (Nat × Cell)),
      popMin l = some (m, rest) → m ∈ l ∧ ∀ x ∈ rest, x ∈ l := by
  intro l
  induction l with
  | nil => intro m rest h; simp [popMin] at h
  | cons e es ih =>
    intro m rest h
    unfold popMin at h
    rcases hrec : popMin es with _ | ⟨m', rest'⟩ <;> rw [hrec] at h
    · simp only [Option.some.injEq, Prod.mk.injEq] at h
      obtain ⟨rfl, rfl⟩ := h
      exact ⟨List.mem_cons_self _ _, by simp⟩
    · obtain ⟨hm, hr⟩ := ih m' rest' hrec
      dsimp only at h
      by_cases hle : entryLe e m' = true
      · rw [if_pos hle] at h
        simp only [Option.some.injEq, Prod.mk.injEq] at h
        obtain ⟨rfl, rfl⟩ := h
        exact ⟨List.mem_cons_self _ _, fun x hx => List.mem_cons_of_mem _ hx⟩
      · rw [if_neg hle] at h
        simp only [Option.some.injEq, Prod.mk.injEq] at h
        obtain ⟨rfl, rfl⟩ := h
        refine ⟨List.mem_cons_of_mem _ hm, ?_⟩
        intro x hx
        rcases List.mem_cons.mp hx with rfl | hx
        · exact List.mem_cons_self _ _
        · exact List.mem_cons_of_mem _ (hr x hx)

/-- The body of the relaxation in `find_path`: record `came_from[neighbor]`,
`g_score[neighbor]`, `f_score[neighbor]`, and push the heap entry when the
neighbor is not in `open_set_hash`.  Note the source does NOT re-push (or
re-prioritise) a neighbor that is already in the open set. -/
def relaxNeighbor (endG nb cur : Cell) (tentative : Nat) (st : AState) : AState :=
  let fnb := tentative + heuristic nb endG
  let st1 : AState :=
    { st with cameFrom := (nb, cur) :: st.cameFrom
              gScore := (nb, tentative) :: st.gScore
              fScore := (nb, fnb) :: st.fScore }
  if st1.openHash.contains nb then st1
  else { st1 with heap := (fnb, nb) :: st1.heap, openHash := nb :: st1.openHash }

/-- Skip / relax decision for one neighbor cell `nb` with step cost `cost`
(milli-units).  `g_score[current]` is looked up in the dictionary; it is always
present for a popped cell (the `.getD 0` default is never consulted). -/
def processCell (p : PF) (grid : Cell → Bool) (endG cur nb : Cell)
    (cost : Nat) (st : AState) : AState :=
  if !(isValidPosition p nb) || grid nb then st
  else
    let tentative := (alookup st.gScore cur).getD 0 + cost
    let better :=
      match alookup st.gScore nb with
      | none => true
      | some gn => decide (tentative < gn)
    if better then relaxNeighbor endG nb cur tentative st else st

/-- One iteration of the `for dx, dy in [...]` neighbor loop of `find_path`
(costs in milli-units: diagonal 1414, orthogonal 1000). -/
def processNeighbor (p : PF) (grid : Cell → Bool) (endG cur : Cell)
    (st : AState) (d : Int × Int) : AState :=
  processCell p grid endG cur (cur.1 + d.1, cur.2 + d.2)
    (if d.1 ≠ 0 ∧ d.2 ≠ 0 then 1414 else 1000) st

/-- The whole neighbor loop for one popped cell. -/
def expand (p : PF) (grid : Cell → Bool) (endG cur : Cell) (st : AState) : AState :=
  dirs.foldl (processNeighbor p grid endG cur) st

/-- Models `PathFinder._reconstruct_path`: walk the predecessor links back from the
goal and reverse.  The walk is fuel-bounded (`came_from.length` suffices for
the acyclic maps the search builds); `none` = the Python loop would still be
running. -/
def recon (cf : List (Cell × Cell)) : Nat → Cell → Option (List Cell)
  | 0, cur =>
    match alookup cf cur with
    | none => some [cur]
    | some _ => none
  | fuel + 1, cur =>
    match alookup cf cur with
    | none => some [cur]
    | some prev => (recon cf fuel prev).map (fun l => l ++ [cur])

/-- The `while open_set:` loop of `find_path`, returning the grid-cell path.
`none` = fuel exhausted (the Python loop is still running), `some []` = the
loop ended with no path, `some cells` = the goal was popped and the path
reconstructed. -/
def astarLoop (p : PF) (grid : Cell → Bool) (endG : Cell) :
    Nat → AState → Option (List Cell)
  | 0, _ => none
  | fuel + 1, st =>
    match popMin st.heap with
    | none => some []
    | some (entry, rest) =>
      let cur := entry.2
      let st1 : AState := { st with heap := rest, openHash := st.openHash.erase cur }
      if cur = endG then recon st1.cameFrom (st1.cameFrom.length + 1) cur
      else astarLoop p grid endG fuel (expand p grid endG cur st1)

/-- Models `int(coord / grid_size)` conversion of a world point to its grid cell
(Python `int()` truncates toward zero, i.e. `Int.div`). -/
def toGridCell (p : PF) (pt : Int × Int) : Cell :=
  (Int.tdiv pt.1 (p.gridSize : Int), Int.tdiv pt.2 (p.gridSize : Int))

/-- Cell center in world coordinates:
`(x * grid_size + grid_size // 2, y * grid_size + grid_size // 2)`. -/
def cellCenter (p : PF) (c : Cell) : Int × Int :=
  (c.1 * (p.gridSize : Int) + Int.fdiv (p.gridSize : Int) 2,
   c.2 * (p.gridSize : Int) + Int.fdiv (p.gridSize : Int) 2)

/-- Models `PathFinder.find_path(start, end, obstacles)`.  Returned waypoints are the
cell centers of the reconstructed grid path; `some []` is the source's empty
result (out-of-bounds endpoint, occupied endpoint, or search exhausted). -/
def findPath (p : PF) (start endP : Int × Int) (obstacles : List Rect)
    (fuel : Nat) : Option (List (Int × Int)) :=
  let startG := toGridCell p start
  let endG := toGridCell p endP
  if !(isValidPosition p startG) || !(isValidPosition p endG) then some []
  else
    let grid := obstacleGrid p obstacles
    if grid startG || grid endG then some []
    else
      let st0 : AState :=
        { heap := [(0, startG)], openHash := [startG], cameFrom := [],
          gScore := [(startG, 0)], fScore := [(startG, heuristic startG endG)] }
      (astarLoop p grid endG fuel st0).map
        (fun cells => cells.map (cellCenter p))

/-- Cost of one grid step in milli-units (1414 diagonal, 1000 orthogonal). -/
def stepCostMilli (a b : Cell) : Nat :=
  if a.1 ≠ b.1 ∧ a.2 ≠ b.2 then 1414 else 1000

/-- Total cost of a cell path in milli-units. -/
def pathCostMilli : List Cell → Nat
  | [] => 0
  | [_] => 0
  | a :: b :: t => stepCostMilli a b + pathCostMilli (b :: t)

/-- 8-connectivity of two cells, exactly the neighbor offsets of the loop. -/
def adjacent8 (a b : Cell) : Bool :=
  dirs.contains (b.1 - a.1, b.2 - a.2)

/-- Consecutive elements 8-adjacent. -/
def chain8 : List Cell → Bool
  | [] => true
  | [_] => true
  | a :: b :: t => adjacent8 a b && chain8 (b :: t)

/-- Models `l` is a path of valid, unblocked, 8-connected cells from `s` to `e`. -/
def validCellPath (p : PF) (obstacles : List Rect) (s e : Cell)
    (l : List Cell) : Bool :=
  (l.head? == some s) && (l.getLast? == some e) &&
    l.all (fun c => isValidPosition p c && !obstacleGrid p obstacles c) &&
    chain8 l

/-- A cell the search may visit: inside the grid and not blocked in the
inflated obstacle grid. -/
def goodCell (p : PF) (grid : Cell → Bool) (c : Cell) : Prop :=
  isValidPosition p c = true ∧ grid c = false

/-- One 8-connected step between unblocked in-grid cells. -/
def stepRel (p : PF) (grid : Cell → Bool) (a b : Cell) : Prop :=
  (b.1 - a.1, b.2 - a.2) ∈ dirs ∧ goodCell p grid b

/-- Models `c` can be reached from `s` by a sequence of unblocked 8-connected cells. -/
def Reachable (p : PF) (grid : Cell → Bool) (s c : Cell) : Prop :=
  Relation.ReflTransGen (stepRel p grid) s c

theorem relaxNeighbor_good (p : PF) (grid : Cell → Bool) (endG nb cur : Cell)
    (t : Nat) (st : AState) (hnb : goodCell p grid nb) (hcur : goodCell p grid cur)
    (hheap : ∀ e ∈ st.heap, goodCell p grid e.2)
    (hcf : ∀ pr ∈ st.cameFrom, goodCell p grid pr.1 ∧ goodCell p grid pr.2) :
    (∀ e ∈ (relaxNeighbor endG nb cur t st).heap, goodCell p grid e.2) ∧
    (∀ pr ∈ (relaxNeighbor endG nb cur t st).cameFrom,
        goodCell p grid pr.1 ∧ goodCell p grid pr.2) := by
  unfold relaxNeighbor
  dsimp only
  split
  · refine ⟨hheap, ?_⟩
    intro pr hpr
    rcases List.mem_cons.mp hpr with rfl | hpr
    · exact ⟨hnb, hcur⟩
    · exact hcf pr hpr
  · constructor
    · intro e he
      rcases List.mem_cons.mp he with rfl | he
      · exact hnb
      · exact hheap e he
    · intro pr hpr
      rcases List.mem_cons.mp hpr with rfl | hpr
      · exact ⟨hnb, hcur⟩
      · exact hcf pr hpr

theorem processCell_good (p : PF) (grid : Cell → Bool) (endG cur nb : Cell)
    (cost : Nat) (st : AState) (hcur : goodCell p grid cur)
    (hheap : ∀ e ∈ st.heap, goodCell p grid e.2)
    (hcf : ∀ pr ∈ st.cameFrom, goodCell p grid pr.1 ∧ goodCell p grid pr.2) :
    (∀ e ∈ (processCell p grid endG cur nb cost st).heap, goodCell p grid e.2) ∧
    (∀ pr ∈ (processCell p grid endG cur nb cost st).cameFrom,
        goodCell p grid pr.1 ∧ goodCell p grid pr.2) := by
  unfold processCell
  by_cases hcond : (!(isValidPosition p nb) || grid nb) = true
  · rw [if_pos hcond]
    exact ⟨hheap, hcf⟩
  · rw [if_neg hcond]
    have hval : isValidPosition p nb = true := by
      cases hb : isValidPosition p nb
      · rw [hb] at hcond; simp at hcond
      · rfl
    have hgr : grid nb = false := by
      cases hb : grid nb
      · rfl
      · rw [hb] at hcond; simp at hcond
    dsimp only
    split
    · exact relaxNeighbor_good p grid endG nb cur _ st ⟨hval, hgr⟩ hcur hheap hcf
    · exact ⟨hheap, hcf⟩

theorem processNeighbor_good (p : PF) (grid : Cell → Bool) (endG cur : Cell)
    (st : AState) (d : Int × Int) (hcur : goodCell p grid cur)
    (hheap : ∀ e ∈ st.heap, goodCell p grid e.2)
    (hcf : ∀ pr ∈ st.cameFrom, goodCell p grid pr.1 ∧ goodCell p grid pr.2) :
    (∀ e ∈ (processNeighbor p grid endG cur st d).heap, goodCell p grid e.2) ∧
    (∀ pr ∈ (processNeighbor p grid endG cur st d).cameFrom,
        goodCell p grid pr.1 ∧ goodCell p grid pr.2) := by
  unfold processNeighbor
  exact processCell_good p grid endG cur _ _ st hcur hheap hcf

theorem expand_good (p : PF) (grid : Cell → Bool) (endG cur : Cell) (st : AState)
    (hcur : goodCell p grid cur)
    (hheap : ∀ e ∈ st.heap, goodCell p grid e.2)
    (hcf : ∀ pr ∈ st.cameFrom, goodCell p grid pr.1 ∧ goodCell p grid pr.2) :
    (∀ e ∈ (expand p grid endG cur st).heap, goodCell p grid e.2) ∧
    (∀ pr ∈ (expand p grid endG cur st).cameFrom,
        goodCell p grid pr.1 ∧ goodCell p grid pr.2) := by
  unfold expand
  refine foldl_preserve (P := fun s =>
    (∀ e ∈ s.heap, goodCell p grid e.2) ∧
    (∀ pr ∈ s.cameFrom, goodCell p grid pr.1 ∧ goodCell p grid pr.2))
    dirs st ?_ ⟨hheap, hcf⟩
  intro x _ s hs
  exact processNeighbor_good p grid endG cur s x hcur hs.1 hs.2

theorem recon_good (p : PF) (grid : Cell → Bool) (cf : List (Cell × Cell))
    (hcf : ∀ pr ∈ cf, goodCell p grid pr.1 ∧ goodCell p grid pr.2) :
    ∀ (fuel : Nat) (cur : Cell), goodCell p grid cur →
      ∀ l, recon cf fuel cur = some l → ∀ c ∈ l, goodCell p grid c
  | 0, cur, hcur, l, h => by
    unfold recon at h
    rcases hl : alookup cf cur with _ | prev <;> rw [hl] at h
    · simp only [Option.some.injEq] at h
      subst h
      intro c hc
      rw [List.mem_singleton.mp hc]
      exact hcur
    · simp at h
  | fuel + 1, cur, hcur, l, h => by
    unfold recon at h
    rcases hl : alookup cf cur with _ | prev <;> rw [hl] at h
    · simp only [Option.some.injEq] at h
      subst h
      intro c hc
      rw [List.mem_singleton.mp hc]
      exact hcur
    · dsimp only at h
      rcases hrec : recon cf fuel prev with _ | l' <;> rw [hrec] at h
      · simp at h
      · simp only [Option.map_some', Option.some.injEq] at h
        subst h
        have hprev : goodCell p grid prev := (hcf _ (alookup_mem cf cur prev hl)).2
        intro c hc
        rcases List.mem_append.mp hc with hc | hc
        · exact recon_good p grid cf hcf fuel prev hprev l' hrec c hc
        · rw [List.mem_singleton.mp hc]
          exact hcur

theorem astarLoop_good (p : PF) (grid : Cell → Bool) (endG : Cell) :
    ∀ (fuel : Nat) (st : AState),
      (∀ e ∈ st.heap, goodCell p grid e.2) →
      (∀ pr ∈ st.cameFrom, goodCell p grid pr.1 ∧ goodCell p grid pr.2) →
      ∀ l, astarLoop p grid endG fuel st = some l → ∀ c ∈ l, goodCell p grid c
  | 0, st, _, _, l, h => by simp [astarLoop] at h
  | fuel + 1, st, hheap, hcf, l, h => by
    unfold astarLoop at h
    rcases hpop : popMin st.heap with _ | ⟨⟨f, cur⟩, rest⟩ <;> rw [hpop] at h
    · simp only [Option.some.injEq] at h
      subst h
      intro c hc
      simp at hc
    · dsimp only at h
      obtain ⟨hmem, hrest⟩ := popMin_spec _ _ _ hpop
      have hcur : goodCell p grid cur := hheap _ hmem
      by_cases hend : cur = endG
      · rw [if_pos hend] at h
        exact recon_good p grid st.cameFrom hcf _ cur hcur l h
      · rw [if_neg hend] at h
        have hpres := expand_good p grid endG cur
          { st with heap := rest, openHash := st.openHash.erase cur } hcur
          (fun e he => hheap e (hrest e he)) hcf
        exact astarLoop_good p grid endG fuel _ hpres.1 hpres.2 l h

theorem relaxNeighbor_reach (p : PF) (grid : Cell → Bool) (endG nb cur : Cell)
    (t : Nat) (st : AState) (s : Cell) (hnb : Reachable p grid s nb)
    (hheap : ∀ e ∈ st.heap, Reachable p grid s e.2) :
    ∀ e ∈ (relaxNeighbor endG nb cur t st).heap, Reachable p grid s e.2 := by
  unfold relaxNeighbor
  dsimp only
  split
  · exact hheap
  · intro e he
    rcases List.mem_cons.mp he with rfl | he
    · exact hnb
    · exact hheap e he

theorem processCell_reach (p : PF) (grid : Cell → Bool) (endG cur nb : Cell)
    (cost : Nat) (st : AState) (s : Cell)
    (hstep : goodCell p grid nb → stepRel p grid cur nb)
    (hcur : Reachable p grid s cur)
    (hheap : ∀ e ∈ st.heap, Reachable p grid s e.2) :
    ∀ e ∈ (processCell p grid endG cur nb cost st).heap, Reachable p grid s e.2 := by
  unfold processCell
  by_cases hcond : (!(isValidPosition p nb) || grid nb) = true
  · rw [if_pos hcond]
    exact hheap
  · rw [if_neg hcond]
    have hval : isValidPosition p nb = true := by
      cases hb : isValidPosition p nb
      · rw [hb] at hcond; simp at hcond
      · rfl
    have hgr : grid nb = false := by
      cases hb : grid nb
      · rfl
      · rw [hb] at hcond; simp at hcond
    dsimp only
    split
    · exact relaxNeighbor_reach p grid endG nb cur _ st s
        (Relation.ReflTransGen.tail hcur (hstep ⟨hval, hgr⟩)) hheap
    · exact hheap

theorem processNeighbor_reach (p : PF) (grid : Cell → Bool) (endG cur : Cell)
    (st : AState) (d : Int × Int) (s : Cell) (hd : d ∈ dirs)
    (hcur : Reachable p grid s cur)
    (hheap : ∀ e ∈ st.heap, Reachable p grid s e.2) :
    ∀ e ∈ (processNeighbor p grid endG cur st d).heap, Reachable p grid s e.2 := by
  unfold processNeighbor
  refine processCell_reach p grid endG cur _ _ st s ?_ hcur hheap
  intro hgood
  refine ⟨?_, hgood⟩
  simpa using hd

theorem expand_reach (p : PF) (grid : Cell → Bool) (endG cur : Cell) (st : AState)
    (s : Cell) (hcur : Reachable p grid s cur)
    (hheap : ∀ e ∈ st.heap, Reachable p grid s e.2) :
    ∀ e ∈ (expand p grid endG cur st).heap, Reachable p grid s e.2 := by
  unfold expand
  refine foldl_preserve (P := fun st1 => ∀ e ∈ st1.heap, Reachable p grid s e.2)
    dirs st ?_ hheap
  intro x hx st1 hst1
  exact processNeighbor_reach p grid endG cur st1 x s hx hcur hst1

theorem astarLoop_unreachable (p : PF) (grid : Cell → Bool) (endG s : Cell)
    (hnr : ¬ Reachable p grid s endG) :
    ∀ (fuel : Nat) (st : AState),
      (∀ e ∈ st.heap, Reachable p grid s e.2) →
      ∀ l, astarLoop p grid endG fuel st = some l → l = []
  | 0, st, _, l, h => by simp [astarLoop] at h
  | fuel + 1, st, hheap, l, h => by
    unfold astarLoop at h
    rcases hpop : popMin st.heap with _ | ⟨⟨f, cur⟩, rest⟩ <;> rw [hpop] at h
    · simp only [Option.some.injEq] at h
      exact h.symm
    · dsimp only at h
      obtain ⟨hmem, hrest⟩ := popMin_spec _ _ _ hpop
      by_cases hend : cur = endG
      · exact absurd (hend ▸ hheap _ hmem) hnr
      · rw [if_neg hend] at h
        exact astarLoop_unreachable p grid endG s hnr fuel _
          (expand_reach p grid endG cur _ s (hheap _ hmem)
            (fun e he => hheap e (hrest e he))) l h

theorem cellCenter_inj (p : PF) (hgs : 0 < p.gridSize) (a b : Cell)
    (h : cellCenter p a = cellCenter p b) : a = b := by
  unfold cellCenter at h
  have hgs0 : (p.gridSize : Int) ≠ 0 := by
    exact_mod_cast Nat.pos_iff_ne_zero.mp hgs
  obtain ⟨h1, h2⟩ := Prod.ext_iff.mp h
  dsimp only at h1 h2
  have e1 : a.1 = b.1 := mul_right_cancel₀ hgs0 (by linarith)
  have e2 : a.2 = b.2 := mul_right_cancel₀ hgs0 (by linarith)
  exact Prod.ext e1 e2

/-- A blocked cell of the inflated obstacle grid is always inside the grid
bounds (the fill loops are clamped to the grid). -/
theorem obstacleGrid_valid (p : PF) (obstacles : List Rect) (c : Cell)
    (h : obstacleGrid p obstacles c = true) : isValidPosition p c = true := by
  unfold obstacleGrid at h
  rcases List.any_eq_true.mp h with ⟨o, _, ho⟩
  unfold inflatedCovers at ho
  have hc := of_decide_eq_true ho
  unfold isValidPosition
  refine decide_eq_true ?_
  refine ⟨le_trans (le_max_left 0 _) hc.2.2.1, lt_of_lt_of_le hc.2.2.2 (min_le_left _ _),
    le_trans (le_max_left 0 _) hc.1, lt_of_lt_of_le hc.2.1 (min_le_left _ _)⟩

/-- C4 **A\* soundness**: whenever `find_path` returns a result, no returned
waypoint is the center of a cell marked blocked in the inflated obstacle grid
built for that call. -/
theorem findPath_waypoints_not_blocked (p : PF) (start endP : Int × Int)
    (obstacles : List Rect) (fuel : Nat) (ps : List (Int × Int))
    (hgs : 0 < p.gridSize)
    (h : findPath p start endP obstacles fuel = some ps) :
    ∀ w ∈ ps, ∀ c : Cell, obstacleGrid p obstacles c = true →
      w ≠ cellCenter p c := by
  unfold findPath at h
  dsimp only at h
  by_cases h1 : (!(isValidPosition p (toGridCell p start)) ||
      !(isValidPosition p (toGridCell p endP))) = true
  · rw [if_pos h1] at h
    simp only [Option.some.injEq] at h
    subst h
    intro w hw
    simp at hw
  · rw [if_neg h1] at h
    by_cases h2 : (obstacleGrid p obstacles (toGridCell p start) ||
        obstacleGrid p obstacles (toGridCell p endP)) = true
    · rw [if_pos h2] at h
      simp only [Option.some.injEq] at h
      subst h
      intro w hw
      simp at hw
    · rw [if_neg h2] at h
      have hsv : isValidPosition p (toGridCell p start) = true := by
        cases hb : isValidPosition p (toGridCell p start)
        · rw [hb] at h1; simp at h1
        · rfl
      have hsb : obstacleGrid p obstacles (toGridCell p start) = false := by
        cases hb : obstacleGrid p obstacles (toGridCell p start)
        · rfl
        · rw [hb] at h2; simp at h2
      rcases hloop : astarLoop p (obstacleGrid p obstacles) (toGridCell p endP) fuel
          { heap := [(0, toGridCell p start)], openHash := [toGridCell p start],
            cameFrom := [], gScore := [(toGridCell p start, 0)],
            fScore := [(toGridCell p start,
              heuristic (toGridCell p start) (toGridCell p endP))] }
          with _ | cells <;> rw [hloop] at h
      · simp at h
      · simp only [Option.map_some', Option.some.injEq] at h
        subst h
        have hall := astarLoop_good p (obstacleGrid p obstacles)
          (toGridCell p endP) fuel _
          (by
            intro e he
            rcases List.mem_singleton.mp he with rfl
            exact ⟨hsv, hsb⟩)
          (by intro pr hpr; simp at hpr)
          cells hloop
        intro w hw c hcb heq
        rcases List.mem_map.mp hw with ⟨c', hc', rfl⟩
        have hgood := hall c' hc'
        rw [cellCenter_inj p hgs c' c heq] at hgood
        rw [hgood.2] at hcb
        exact Bool.false_ne_true hcb

/-- Witness for C4 on a concrete run: `find_path` over a 6×6 grid with one
obstacle returns a top-row path; its final waypoint is not the center of the
blocked cell `(2,4)`. -/
theorem findPath_waypoints_not_blocked_witness :
    ((110 : Int), (10 : Int)) ≠ cellCenter ⟨120, 120, 20⟩ (2, 4) :=
  findPath_waypoints_not_blocked ⟨120, 120, 20⟩ (10, 10) (110, 10)
    [⟨40, 80, 20, 20⟩] 64
    [(10, 10), (30, 10), (50, 10), (70, 10), (90, 10), (110, 10)]
    (by decide) (by decide) (110, 10) (by decide) (2, 4) (by decide)

/-- C5 **no-path cases**: if the start or goal cell is out of the grid bounds,
or marked occupied in the inflated obstacle grid, or no sequence of unblocked
8-connected cells joins the start cell to the goal cell, then whatever
`find_path` returns is the empty path — never a partial path.  (`findPath …
 = some ps` states that the Python loop terminated with result `ps`.) -/
theorem findPath_empty_on_no_route (p : PF) (start endP : Int × Int)
    (obstacles : List Rect) (fuel : Nat) (ps : List (Int × Int))
    (hbad : isValidPosition p (toGridCell p start) = false ∨
            isValidPosition p (toGridCell p endP) = false ∨
            obstacleGrid p obstacles (toGridCell p start) = true ∨
            obstacleGrid p obstacles (toGridCell p endP) = true ∨
            ¬ Reachable p (obstacleGrid p obstacles) (toGridCell p start)
                (toGridCell p endP))
    (h : findPath p start endP obstacles fuel = some ps) : ps = [] := by
  unfold findPath at h
  dsimp only at h
  by_cases h1 : (!(isValidPosition p (toGridCell p start)) ||
      !(isValidPosition p (toGridCell p endP))) = true
  · rw [if_pos h1] at h
    simp only [Option.some.injEq] at h
    exact h.symm
  · rw [if_neg h1] at h
    by_cases h2 : (obstacleGrid p obstacles (toGridCell p start) ||
        obstacleGrid p obstacles (toGridCell p endP)) = true
    · rw [if_pos h2] at h
      simp only [Option.some.injEq] at h
      exact h.symm
    · rw [if_neg h2] at h
      have hsv : isValidPosition p (toGridCell p start) = true := by
        cases hb : isValidPosition p (toGridCell p start)
        · rw [hb] at h1; simp at h1
        · rfl
      have hev : isValidPosition p (toGridCell p endP) = true := by
        cases hb : isValidPosition p (toGridCell p endP)
        · rw [hb] at h1; simp at h1
        · rfl
      have hsb : obstacleGrid p obstacles (toGridCell p start) = false := by
        cases hb : obstacleGrid p obstacles (toGridCell p start)
        · rfl
        · rw [hb] at h2; simp at h2
      have heb : obstacleGrid p obstacles (toGridCell p endP) = false := by
        cases hb : obstacleGrid p obstacles (toGridCell p endP)
        · rfl
        · rw [hb] at h2; simp at h2
      have hnr : ¬ Reachable p (obstacleGrid p obstacles) (toGridCell p start)
          (toGridCell p endP) := by
        rcases hbad with hb | hb | hb | hb | hb
        · rw [hsv] at hb; exact absurd hb (by simp)
        · rw [hev] at hb; exact absurd hb (by simp)
        · rw [hsb] at hb; exact absurd hb (by simp)
        · rw [heb] at hb; exact absurd hb (by simp)
        · exact hb
      rcases hloop : astarLoop p (obstacleGrid p obstacles) (toGridCell p endP) fuel
          { heap := [(0, toGridCell p start)], openHash := [toGridCell p start],
            cameFrom := [], gScore := [(toGridCell p start, 0)],
            fScore := [(toGridCell p start,
              heuristic (toGridCell p start) (toGridCell p endP))] }
          with _ | cells <;> rw [hloop] at h
      · simp at h
      · simp only [Option.map_some', Option.some.injEq] at h
        have hempty := astarLoop_unreachable p (obstacleGrid p obstacles)
          (toGridCell p endP) (toGridCell p start) hnr fuel _
          (by
            intro e he
            rcases List.mem_singleton.mp he with rfl
            exact Relation.ReflTransGen.refl)
          cells hloop
        rw [hempty] at h
        exact h.symm

/-- Witness for C5: a start point whose grid cell is out of bounds makes
`find_path` return the empty path. -/
theorem findPath_empty_on_no_route_witness : ([] : List (Int × Int)) = [] :=
  findPath_empty_on_no_route ⟨120, 120, 20⟩ (500, 10) (10, 10) [] 7 []
    (Or.inl (by decide)) (by decide)

/-- C1 is false on the code (`code_bug`): on a 6×6 grid (`PathFinder(120,120)`,
cell size 20) with the single obstacle `pygame.Rect(0,20,5,20)`, start
`(110,10)` and goal `(10,90)`, `find_path` returns the 7-waypoint path of
total milli-cost 7242 (3 orthogonal + 3 diagonal steps), although the clear
corridor `(5,0),(4,1),(3,2),(2,3),(1,4),(0,4)` joins the start cell to the
goal cell with milli-cost 6656 (1 orthogonal + 4 diagonal).  The missing
re-push of an open node whose g-score improves lets the goal be popped at a
stale priority, so the returned cost is not minimal. -/
theorem findPath_suboptimal_on_failing_input :
    findPath ⟨120, 120, 20⟩ (110, 10) (10, 90) [⟨0, 20, 5, 20⟩] 64 =
      some [(110, 10), (90, 10), (70, 30), (50, 50), (50, 70), (30, 90), (10, 90)] ∧
    [(110, 10), (90, 10), (70, 30), (50, 50), (50, 70), (30, 90), (10, 90)] =
      ([(5, 0), (4, 0), (3, 1), (2, 2), (2, 3), (1, 4), (0, 4)] : List Cell).map
        (cellCenter ⟨120, 120, 20⟩) ∧
    validCellPath ⟨120, 120, 20⟩ [⟨0, 20, 5, 20⟩] (toGridCell ⟨120, 120, 20⟩ (110, 10))
      (toGridCell ⟨120, 120, 20⟩ (10, 90))
      [(5, 0), (4, 0), (3, 1), (2, 2), (2, 3), (1, 4), (0, 4)] = true ∧
    pathCostMilli [(5, 0), (4, 0), (3, 1), (2, 2), (2, 3), (1, 4), (0, 4)] = 7242 ∧
    validCellPath ⟨120, 120, 20⟩ [⟨0, 20, 5, 20⟩] (toGridCell ⟨120, 120, 20⟩ (110, 10))
      (toGridCell ⟨120, 120, 20⟩ (10, 90))
      [(5, 0), (4, 1), (3, 2), (2, 3), (1, 4), (0, 4)] = true ∧
    pathCostMilli [(5, 0), (4, 1), (3, 2), (2, 3), (1, 4), (0, 4)] = 6656 ∧
    (6656 : Nat) < 7242 := by
  refine ⟨by decide, by decide, by decide, by decide, by decide, by decide, by decide⟩

end PathFinder

namespace Veh

/-- A point of the continuous plane (`vehicle.py` works with Python floats;
the embedding uses exact rationals). -/
abbrev Point := ℚ × ℚ

/-- The `ccw` helper of `Vehicle._do_lines_intersect` (strict `>` comparison of
the two cross products). -/
def ccw (a b c : Point) : Bool :=
  decide ((c.2 - a.2) * (b.1 - a.1) > (b.2 - a.2) * (c.1 - a.1))

/-- Models `Vehicle._do_lines_intersect(p1, p2, p3, p4)`. -/
def doLinesIntersect (p1 p2 p3 p4 : Point) : Bool :=
  (ccw p1 p3 p4 != ccw p2 p3 p4) && (ccw p1 p2 p3 != ccw p1 p2 p4)

theorem ccw_rot (a b c : Point) : ccw a b c = ccw b c a := by
  unfold ccw
  rw [decide_eq_decide]
  have key : (c.2 - a.2) * (b.1 - a.1) - (b.2 - a.2) * (c.1 - a.1)
      = (a.2 - b.2) * (c.1 - b.1) - (c.2 - b.2) * (a.1 - b.1) := by ring
  constructor <;> intro h <;> linarith [key]

theorem doLinesIntersect_swap (a b c d : Point) :
    doLinesIntersect a b c d = doLinesIntersect c d a b := by
  unfold doLinesIntersect
  rw [ccw_rot c a b, ccw_rot d a b, ccw_rot c d a, ccw_rot d a c,
    ccw_rot c d b, ccw_rot d b c]
  exact Bool.and_comm _ _

/-- A quadrilateral given by its 4 corner points, the shape
`Vehicle.get_corners` returns and `_check_rectangle_collision` consumes. -/
structure Quad where
  q0 : Point
  q1 : Point
  q2 : Point
  q3 : Point

/-- One iteration of the ray-casting loop of `Vehicle._is_point_in_polygon`:
edge `(p1, p2)`, flip `inside` when the horizontal ray from the query point
crosses the edge.  When the outer guard holds, `p1y ≠ p2y`, so `xinters` is
freshly assigned (rational division is total, matching the guarded float
division). -/
def pipStep (pt : Point) (inside : Bool) (e : Point × Point) : Bool :=
  if pt.2 > min e.1.2 e.2.2 ∧ pt.2 ≤ max e.1.2 e.2.2 ∧ pt.1 ≤ max e.1.1 e.2.1 then
    (if e.1.1 = e.2.1 ∨
        pt.1 ≤ (pt.2 - e.1.2) * (e.2.1 - e.1.1) / (e.2.2 - e.1.2) + e.1.1 then
      !inside
    else inside)
  else inside

/-- Models `Vehicle._is_point_in_polygon(point, polygon)` on a 4-corner polygon.  The
source iterates `i in range(n+1)` starting from `p1 = polygon[0]`, so the
first edge is the degenerate `(polygon[0], polygon[0])` (never flips), then
the 4 real edges. -/
def isPointInQuad (pt : Point) (q : Quad) : Bool :=
  [(q.q0, q.q0), (q.q0, q.q1), (q.q1, q.q2), (q.q2, q.q3), (q.q3, q.q0)].foldl
    (pipStep pt) false

/-- Models `Vehicle._check_rectangle_collision` once the obstacle rectangle is
expressed by its 4 corners: every edge of `A` against every edge of `B`
(source loop order), then the two containment probes. -/
def quadCollides (A B : Quad) : Bool :=
  (doLinesIntersect A.q0 A.q1 B.q0 B.q1 || doLinesIntersect A.q0 A.q1 B.q1 B.q2 ||
   doLinesIntersect A.q0 A.q1 B.q2 B.q3 || doLinesIntersect A.q0 A.q1 B.q3 B.q0 ||
   doLinesIntersect A.q1 A.q2 B.q0 B.q1 || doLinesIntersect A.q1 A.q2 B.q1 B.q2 ||
   doLinesIntersect A.q1 A.q2 B.q2 B.q3 || doLinesIntersect A.q1 A.q2 B.q3 B.q0 ||
   doLinesIntersect A.q2 A.q3 B.q0 B.q1 || doLinesIntersect A.q2 A.q3 B.q1 B.q2 ||
   doLinesIntersect A.q2 A.q3 B.q2 B.q3 || doLinesIntersect A.q2 A.q3 B.q3 B.q0 ||
   doLinesIntersect A.q3 A.q0 B.q0 B.q1 || doLinesIntersect A.q3 A.q0 B.q1 B.q2 ||
   doLinesIntersect A.q3 A.q0 B.q2 B.q3 || doLinesIntersect A.q3 A.q0 B.q3 B.q0) ||
  (isPointInQuad A.q0 B || isPointInQuad B.q0 A)

/-- C9 **collision symmetry**: the oriented-rectangle collision test is
symmetric in its two quadrilaterals. -/
theorem quadCollides_symm (A B : Quad) : quadCollides A B = quadCollides B A := by
  unfold quadCollides
  rw [doLinesIntersect_swap B.q0 B.q1 A.q0 A.q1,
    doLinesIntersect_swap B.q0 B.q1 A.q1 A.q2,
    doLinesIntersect_swap B.q0 B.q1 A.q2 A.q3,
    doLinesIntersect_swap B.q0 B.q1 A.q3 A.q0,
    doLinesIntersect_swap B.q1 B.q2 A.q0 A.q1,
    doLinesIntersect_swap B.q1 B.q2 A.q1 A.q2,
    doLinesIntersect_swap B.q1 B.q2 A.q2 A.q3,
    doLinesIntersect_swap B.q1 B.q2 A.q3 A.q0,
    doLinesIntersect_swap B.q2 B.q3 A.q0 A.q1,
    doLinesIntersect_swap B.q2 B.q3 A.q1 A.q2,
    doLinesIntersect_swap B.q2 B.q3 A.q2 A.q3,
    doLinesIntersect_swap B.q2 B.q3 A.q3 A.q0,
    doLinesIntersect_swap B.q3 B.q0 A.q0 A.q1,
    doLinesIntersect_swap B.q3 B.q0 A.q1 A.q2,
    doLinesIntersect_swap B.q3 B.q0 A.q2 A.q3,
    doLinesIntersect_swap B.q3 B.q0 A.q3 A.q0]
  ac_rfl

/-- The transcendental library calls of `vehicle.py`, as oracle parameters:
`cosDeg a` models `math.cos(math.radians(a))`, `sinDeg a` models
`math.sin(math.radians(a))`, `atan2Deg dy dx` models
`math.degrees(math.atan2(dy, dx))`, and `sqrt` models `math.sqrt`. -/
structure Trig where
  cosDeg : ℚ → ℚ
  sinDeg : ℚ → ℚ
  atan2Deg : ℚ → ℚ → ℚ
  sqrt : ℚ → ℚ

/-- A concrete oracle (every call returns 0), used to instantiate theorems on
concrete inputs. -/
def oZero : Trig :=
  { cosDeg := fun _ => 0, sinDeg := fun _ => 0,
    atan2Deg := fun _ _ => 0, sqrt := fun _ => 0 }

/-- The motion states of the `Vehicle` state machine. -/
inductive VState where
  | idle
  | moving
  | rotating
  | parking
  | returning
deriving DecidableEq, Repr

/-- The mutable fields of `Vehicle` (display-only fields `color`,
`path_colors` and `path_color` are omitted; the fixed dimensions and rates are
the module constants below). -/
structure Vehicle where
  x : ℚ
  y : ℚ
  startX : ℚ
  startY : ℚ
  angle : ℚ
  startAngle : ℚ
  velocity : ℚ
  targetX : Option ℚ
  targetY : Option ℚ
  targetAngle : Option ℚ
  path : List Point
  currentPathIndex : Nat
  state : VState
  parkingPhase : Nat
deriving DecidableEq, Repr

def maxVelocity : ℚ := 4

def acceleration : ℚ := 0.1

def deceleration : ℚ := 0.2

def turningSpeed : ℚ := 2

def vehicleWidth : ℚ := 40

def vehicleLength : ℚ := 80

/-- Models `Vehicle.__init__(x, y, angle=0)`. -/
def mkVehicle (x y angle : ℚ) : Vehicle :=
  { x := x, y := y, startX := x, startY := y, angle := angle,
    startAngle := angle, velocity := 0, targetX := none, targetY := none,
    targetAngle := none, path := [], currentPathIndex := 0, state := .idle,
    parkingPhase := 0 }

/-- Models `Vehicle.reset`. -/
def Vehicle.reset (v : Vehicle) : Vehicle :=
  { v with x := v.startX, y := v.startY, angle := v.startAngle, velocity := 0,
           targetX := none, targetY := none, targetAngle := none, path := [],
           currentPathIndex := 0, state := .idle, parkingPhase := 0 }

/-- Models `Vehicle.set_path` (the attempt-indexed display color is omitted). -/
def Vehicle.setPath (v : Vehicle) (path : List Point) : Vehicle :=
  { v with path := path, currentPathIndex := 0 }

/-- Models `Vehicle.move_to`. -/
def Vehicle.moveTo (v : Vehicle) (tx ty : ℚ) (ta : Option ℚ) : Vehicle :=
  { v with targetX := some tx, targetY := some ty, targetAngle := ta,
           state := .moving }

/-- Python float `%` by the positive modulus 360 (result carries the sign of
the divisor): `a - 360 * floor(a / 360)`. -/
def qmod360 (a : ℚ) : ℚ := a - 360 * ⌊a / 360⌋

theorem qmod360_nonneg (a : ℚ) : 0 ≤ qmod360 a := by
  unfold qmod360
  have h1 : ((⌊a / 360⌋ : ℤ) : ℚ) ≤ a / 360 := Int.floor_le _
  have h3 : a / 360 * 360 = a := by field_simp
  linarith

theorem qmod360_lt (a : ℚ) : qmod360 a < 360 := by
  unfold qmod360
  have h2 : a / 360 < ⌊a / 360⌋ + 1 := Int.lt_floor_add_one _
  have h3 : a / 360 * 360 = a := by field_simp
  linarith

/-- The repeated wrap-into-`(-180, 180]` pattern of `vehicle.py`:
`d % 360`, then subtract 360 when the result exceeds 180. -/
def wrap180 (d : ℚ) : ℚ :=
  if qmod360 d > 180 then qmod360 d - 360 else qmod360 d

/-- The repeated turn step of `vehicle.py`: move the heading by at most
`turning_speed` toward the sign of the wrapped error, then normalize with
`%= 360`. -/
def turnToward (angle ad : ℚ) : ℚ :=
  qmod360 (if ad > 0 then angle + min turningSpeed ad else angle - min turningSpeed (-ad))

/-- Models `utils.rotate_point(x, y, center_x, center_y, angle_deg)`. -/
def rotatePoint (o : Trig) (px py cx cy angleDeg : ℚ) : Point :=
  let tx := px - cx
  let ty := py - cy
  (tx * o.cosDeg angleDeg - ty * o.sinDeg angleDeg + cx,
   tx * o.sinDeg angleDeg + ty * o.cosDeg angleDeg + cy)

/-- One corner of `Vehicle.get_corners`: rotate the offset about the origin
and translate by the pose. -/
def vehicleCorner (o : Trig) (v : Vehicle) (cx cy : ℚ) : Point :=
  let r := rotatePoint o cx cy 0 0 v.angle
  (v.x + r.1, v.y + r.2)

/-- Models `Vehicle.get_corners`. -/
def getCorners (o : Trig) (v : Vehicle) : Quad :=
  ⟨vehicleCorner o v (-(vehicleLength / 2)) (-(vehicleWidth / 2)),
   vehicleCorner o v (vehicleLength / 2) (-(vehicleWidth / 2)),
   vehicleCorner o v (vehicleLength / 2) (vehicleWidth / 2),
   vehicleCorner o v (-(vehicleLength / 2)) (vehicleWidth / 2)⟩

/-- The corner list `_check_rectangle_collision` builds from a `pygame.Rect`. -/
def rectToQuad (r : Rect) : Quad :=
  ⟨((r.left : ℚ), (r.top : ℚ)), ((r.right : ℚ), (r.top : ℚ)),
   ((r.right : ℚ), (r.bottom : ℚ)), ((r.left : ℚ), (r.bottom : ℚ))⟩

/-- Models `Vehicle._check_rectangle_collision(vehicle_corners, obstacle_rect)`. -/
def checkRectangleCollision (vc : Quad) (r : Rect) : Bool :=
  quadCollides vc (rectToQuad r)

/-- Models `Vehicle.is_colliding(obstacles)`. -/
def isColliding (o : Trig) (v : Vehicle) (obstacles : List Rect) : Bool :=
  obstacles.any (fun ob => checkRectangleCollision (getCorners o v) ob)

/-- The steering/advance block repeated in `_update_moving`,
`_update_parking` and `_update_returning`: if the wrapped heading error `ad`
exceeds the 2° deadband, turn by at most the turning rate and bleed velocity
by 0.05 (floored at 0); otherwise accelerate by `accel` up to `velCap`; then
integrate the position along the (possibly updated) heading. -/
def steerTowards (o : Trig) (ad velCap accel : ℚ) (v : Vehicle) : Vehicle :=
  let v1 :=
    if |ad| > 2 then
      { v with angle := turnToward v.angle ad,
               velocity := max 0 (v.velocity - 0.05) }
    else { v with velocity := min velCap (v.velocity + accel) }
  { v1 with x := v1.x + v1.velocity * o.cosDeg v1.angle,
            y := v1.y + v1.velocity * o.sinDeg v1.angle }

/-- Models `Vehicle._update_moving`. -/
def updateMoving (o : Trig) (v : Vehicle) : Vehicle :=
  match v.targetX, v.targetY with
  | some tx, some ty =>
    let dx := tx - v.x
    let dy := ty - v.y
    let targetDistance := o.sqrt (dx * dx + dy * dy)
    let ad := wrap180 (o.atan2Deg dy dx - v.angle)
    let v2 := steerTowards o ad maxVelocity acceleration v
    if targetDistance < 5 then
      match v2.targetAngle with
      | some _ => { v2 with velocity := 0, state := .rotating }
      | none => { v2 with velocity := 0, state := .idle,
                          targetX := none, targetY := none }
    else v2
  | _, _ => { v with state := .idle }

/-- Models `Vehicle._update_rotating`. -/
def updateRotating (v : Vehicle) : Vehicle :=
  match v.targetAngle with
  | none => { v with state := .idle }
  | some ta =>
    let ad := wrap180 (ta - v.angle)
    if |ad| > 1 then { v with angle := turnToward v.angle ad }
    else { v with angle := ta, state := .idle, targetAngle := none }

/-- Models `Vehicle._update_parking`. -/
def updateParking (o : Trig) (obstacles : List Rect) (v : Vehicle) : Vehicle :=
  if isColliding o v obstacles then { v with state := .returning }
  else
    match v.path[v.currentPathIndex]? with
    | some target =>
      let dx := target.1 - v.x
      let dy := target.2 - v.y
      let targetDistance := o.sqrt (dx * dx + dy * dy)
      let ad := wrap180 (o.atan2Deg dy dx - v.angle)
      let v2 := steerTowards o ad (maxVelocity / 2) (acceleration / 2) v
      if targetDistance < 5 then
        if v2.currentPathIndex + 1 ≥ v2.path.length then
          { v2 with currentPathIndex := v2.currentPathIndex + 1,
                    state := .idle, velocity := 0 }
        else { v2 with currentPathIndex := v2.currentPathIndex + 1 }
      else v2
    | none => { v with state := .idle, velocity := 0 }

/-- Models `Vehicle._update_returning`. -/
def updateReturning (o : Trig) (v : Vehicle) : Vehicle :=
  let dx := v.startX - v.x
  let dy := v.startY - v.y
  let distanceToStart := o.sqrt (dx * dx + dy * dy)
  if distanceToStart < 10 then
    let v0 := { v with x := v.startX, y := v.startY }
    let ad := wrap180 (v0.startAngle - v0.angle)
    if |ad| < 2 then
      { v0 with angle := v0.startAngle, velocity := 0, state := .idle }
    else { v0 with angle := turnToward v0.angle ad }
  else
    let ad := wrap180 (o.atan2Deg dy dx - v.angle)
    steerTowards o ad maxVelocity acceleration v

/-- Models `Vehicle.update(obstacles)`. -/
def update (o : Trig) (obstacles : List Rect) (v : Vehicle) : Vehicle :=
  match v.state with
  | .idle => v
  | .moving => updateMoving o v
  | .rotating => updateRotating v
  | .parking => updateParking o obstacles v
  | .returning => updateReturning o v

theorem steerTowards_fields (o : Trig) (ad velCap accel : ℚ) (v : Vehicle) :
    (steerTowards o ad velCap accel v).path = v.path ∧
    (steerTowards o ad velCap accel v).currentPathIndex = v.currentPathIndex ∧
    (steerTowards o ad velCap accel v).state = v.state ∧
    (steerTowards o ad velCap accel v).startAngle = v.startAngle ∧
    (steerTowards o ad velCap accel v).targetAngle = v.targetAngle ∧
    ((steerTowards o ad velCap accel v).angle = v.angle ∨
      (steerTowards o ad velCap accel v).angle = turnToward v.angle ad) := by
  unfold steerTowards
  dsimp only
  split
  · exact ⟨rfl, rfl, rfl, rfl, rfl, Or.inr rfl⟩
  · exact ⟨rfl, rfl, rfl, rfl, rfl, Or.inl rfl⟩

/-- C10 (idle frame rule): `Vehicle.update` with state `idle` returns
immediately, leaving every field unchanged, whatever obstacles are passed. -/
theorem update_idle_noop (o : Trig) (obstacles : List Rect) (v : Vehicle)
    (h : v.state = .idle) : update o obstacles v = v := by
  unfold update
  rw [h]

/-- Witness for C10 at a concrete idle vehicle. -/
theorem update_idle_noop_witness :
    update oZero [] (mkVehicle 1 2 3) = mkVehicle 1 2 3 :=
  update_idle_noop oZero [] (mkVehicle 1 2 3) rfl

/-- C7: one tick in the `parking` state: a collision with a supplied obstacle
sends the state to `returning`; otherwise, reaching the current waypoint
(computed distance below 5) advances the path cursor, and once the cursor is
past the end of the path the state is `idle` with velocity 0. -/
theorem parking_tick_behavior (o : Trig) (obstacles : List Rect) (v : Vehicle)
    (hst : v.state = .parking) :
    (isColliding o v obstacles = true →
        (update o obstacles v).state = .returning) ∧
    (isColliding o v obstacles = false →
      (∀ t, v.path[v.currentPathIndex]? = some t →
          o.sqrt ((t.1 - v.x) * (t.1 - v.x) + (t.2 - v.y) * (t.2 - v.y)) < 5 →
          (update o obstacles v).currentPathIndex = v.currentPathIndex + 1) ∧
      (¬ (update o obstacles v).currentPathIndex <
            (update o obstacles v).path.length →
          (update o obstacles v).state = .idle ∧
          (update o obstacles v).velocity = 0)) := by
  unfold update
  rw [hst]
  dsimp only
  unfold updateParking
  by_cases hcol : isColliding o v obstacles = true
  · rw [if_pos hcol]
    constructor
    · intro _
      rfl
    · intro hf
      rw [hcol] at hf
      simp at hf
  · rw [if_neg hcol]
    refine ⟨fun hc => absurd hc hcol, fun _ => ?_⟩
    rcases hidx : v.path[v.currentPathIndex]? with _ | t
    · dsimp only
      refine ⟨fun t ht _ => by simp at ht, fun _ => ⟨rfl, rfl⟩⟩
    · dsimp only
      have hlt : v.currentPathIndex < v.path.length :=
        List.getElem?_eq_some.mp hidx |>.1
      obtain ⟨hp, hi, hs, _, _, _⟩ := steerTowards_fields o
        (wrap180 (o.atan2Deg (t.2 - v.y) (t.1 - v.x) - v.angle))
        (maxVelocity / 2) (acceleration / 2) v
      by_cases hdist : o.sqrt ((t.1 - v.x) * (t.1 - v.x) +
          (t.2 - v.y) * (t.2 - v.y)) < 5
      · rw [if_pos hdist]
        by_cases hend : (steerTowards o
            (wrap180 (o.atan2Deg (t.2 - v.y) (t.1 - v.x) - v.angle))
            (maxVelocity / 2) (acceleration / 2) v).currentPathIndex + 1 ≥
            (steerTowards o
              (wrap180 (o.atan2Deg (t.2 - v.y) (t.1 - v.x) - v.angle))
              (maxVelocity / 2) (acceleration / 2) v).path.length
        · rw [if_pos hend]
          exact ⟨fun t' ht' _ => by dsimp only; rw [hi], fun _ => ⟨rfl, rfl⟩⟩
        · rw [if_neg hend]
          refine ⟨fun t' ht' _ => by dsimp only; rw [hi], fun hc => ?_⟩
          dsimp only at hc
          rw [hp, hi] at hend hc
          omega
      · rw [if_neg hdist]
        constructor
        · intro t' ht' hd
          simp only [Option.some.injEq] at ht'
          subst ht'
          exact absurd hd hdist
        · intro hc
          rw [hp, hi] at hc
          exact absurd hlt hc

/-- A non-colliding parking tick leaves the assigned path itself unchanged
(only the cursor moves). -/
theorem update_parking_path_eq (o : Trig) (obstacles : List Rect) (v : Vehicle)
    (hst : v.state = .parking) (hcol : isColliding o v obstacles = false) :
    (update o obstacles v).path = v.path := by
  unfold update
  rw [hst]
  dsimp only
  unfold updateParking
  rw [if_neg (by rw [hcol]; simp)]
  rcases hidx : v.path[v.currentPathIndex]? with _ | t
  · rfl
  · dsimp only
    obtain ⟨hp, _, _, _, _, _⟩ := steerTowards_fields o
      (wrap180 (o.atan2Deg (t.2 - v.y) (t.1 - v.x) - v.angle))
      (maxVelocity / 2) (acceleration / 2) v
    split
    · split
      · exact hp
      · exact hp
    · exact hp

/-- Witness for C7: a concrete parking vehicle with a one-point path and no
obstacles reaches the waypoint (the oracle distance is 0), so the tick ends
idle with velocity 0 and the cursor advanced. -/
theorem parking_tick_behavior_witness :
    (update oZero []
        { mkVehicle 0 0 0 with state := .parking, path := [(0, 0)] }).state =
      VState.idle ∧
    (update oZero []
        { mkVehicle 0 0 0 with state := .parking, path := [(0, 0)] }).velocity = 0 ∧
    (update oZero []
        { mkVehicle 0 0 0 with state := .parking, path := [(0, 0)] }).currentPathIndex = 1 := by
  obtain ⟨h1, h2⟩ := parking_tick_behavior oZero []
    { mkVehicle 0 0 0 with state := .parking, path := [(0, 0)] } rfl
  obtain ⟨hadv, hend⟩ := h2 rfl
  have hidx := hadv (0, 0) rfl (by simp only [oZero]; norm_num)
  have hpath := update_parking_path_eq oZero []
    { mkVehicle 0 0 0 with state := .parking, path := [(0, 0)] } rfl rfl
  have hfin := hend (by rw [hidx, hpath]; simp)
  exact ⟨hfin.1, hfin.2, hidx⟩

/-- The heading invariant of the data model: the pose heading, the remembered
start heading, and any pending target heading all lie in `[0, 360)`. -/
def headingInv (v : Vehicle) : Prop :=
  0 ≤ v.angle ∧ v.angle < 360 ∧ 0 ≤ v.startAngle ∧ v.startAngle < 360 ∧
    ∀ a, v.targetAngle = some a → 0 ≤ a ∧ a < 360

theorem turnToward_mem (angle ad : ℚ) :
    0 ≤ turnToward angle ad ∧ turnToward angle ad < 360 :=
  ⟨qmod360_nonneg _, qmod360_lt _⟩

theorem steerTowards_headingInv (o : Trig) (ad velCap accel : ℚ) (v : Vehicle)
    (h : headingInv v) : headingInv (steerTowards o ad velCap accel v) := by
  obtain ⟨h1, h2, h3, h4, h5⟩ := h
  obtain ⟨_, _, _, hsa, hta, hang⟩ := steerTowards_fields o ad velCap accel v
  refine ⟨?_, ?_, ?_, ?_, ?_⟩
  · rcases hang with he | he
    · rw [he]; exact h1
    · rw [he]; exact (turnToward_mem _ _).1
  · rcases hang with he | he
    · rw [he]; exact h2
    · rw [he]; exact (turnToward_mem _ _).2
  · rw [hsa]; exact h3
  · rw [hsa]; exact h4
  · intro a ha
    rw [hta] at ha
    exact h5 a ha

theorem updateMoving_headingInv (o : Trig) (v : Vehicle) (h : headingInv v) :
    headingInv (updateMoving o v) := by
  unfold updateMoving
  rcases htx : v.targetX with _ | tx <;> rcases hty : v.targetY with _ | ty
  · exact ⟨h.1, h.2.1, h.2.2.1, h.2.2.2.1, h.2.2.2.2⟩
  · exact ⟨h.1, h.2.1, h.2.2.1, h.2.2.2.1, h.2.2.2.2⟩
  · exact ⟨h.1, h.2.1, h.2.2.1, h.2.2.2.1, h.2.2.2.2⟩
  · dsimp only
    have hInv2 := steerTowards_headingInv o
      (wrap180 (o.atan2Deg (ty - v.y) (tx - v.x) - v.angle))
      maxVelocity acceleration v h
    split
    · cases hsc : (steerTowards o
          (wrap180 (o.atan2Deg (ty - v.y) (tx - v.x) - v.angle))
          maxVelocity acceleration v).targetAngle
      · exact ⟨hInv2.1, hInv2.2.1, hInv2.2.2.1, hInv2.2.2.2.1,
          fun b hb => nomatch hb⟩
      · refine ⟨hInv2.1, hInv2.2.1, hInv2.2.2.1, hInv2.2.2.2.1, ?_⟩
        intro b hb
        injection hb with hb'
        rw [← hb']
        exact hInv2.2.2.2.2 _ hsc
    · exact hInv2

theorem updateRotating_headingInv (v : Vehicle) (h : headingInv v) :
    headingInv (updateRotating v) := by
  unfold updateRotating
  rcases hta : v.targetAngle with _ | ta
  · exact ⟨h.1, h.2.1, h.2.2.1, h.2.2.2.1, fun b hb => nomatch hb⟩
  · dsimp only
    split
    · exact ⟨(turnToward_mem _ _).1, (turnToward_mem _ _).2, h.2.2.1,
        h.2.2.2.1, fun b hb => by
          injection hb with hb'
          rw [← hb']
          exact h.2.2.2.2 ta hta⟩
    · exact ⟨(h.2.2.2.2 ta hta).1, (h.2.2.2.2 ta hta).2, h.2.2.1, h.2.2.2.1,
        fun b hb => nomatch hb⟩

theorem updateParking_headingInv (o : Trig) (obstacles : List Rect)
    (v : Vehicle) (h : headingInv v) :
    headingInv (updateParking o obstacles v) := by
  unfold updateParking
  split
  · exact ⟨h.1, h.2.1, h.2.2.1, h.2.2.2.1, h.2.2.2.2⟩
  · rcases hidx : v.path[v.currentPathIndex]? with _ | t
    · exact ⟨h.1, h.2.1, h.2.2.1, h.2.2.2.1, h.2.2.2.2⟩
    · dsimp only
      have hInv2 := steerTowards_headingInv o
        (wrap180 (o.atan2Deg (t.2 - v.y) (t.1 - v.x) - v.angle))
        (maxVelocity / 2) (acceleration / 2) v h
      split
      · split
        · exact ⟨hInv2.1, hInv2.2.1, hInv2.2.2.1, hInv2.2.2.2.1, hInv2.2.2.2.2⟩
        · exact ⟨hInv2.1, hInv2.2.1, hInv2.2.2.1, hInv2.2.2.2.1, hInv2.2.2.2.2⟩
      · exact hInv2

theorem updateReturning_headingInv (o : Trig) (v : Vehicle) (h : headingInv v) :
    headingInv (updateReturning o v) := by
  unfold updateReturning
  dsimp only
  split
  · split
    · exact ⟨h.2.2.1, h.2.2.2.1, h.2.2.1, h.2.2.2.1, h.2.2.2.2⟩
    · exact ⟨(turnToward_mem _ _).1, (turnToward_mem _ _).2, h.2.2.1,
        h.2.2.2.1, h.2.2.2.2⟩
  · exact steerTowards_headingInv o _ maxVelocity acceleration v h

/-- C8 (amended): provided the heading handed to the constructor lies in
`[0, 360)` and any pending target heading lies in `[0, 360)`, construction,
reset, and each per-tick update in every state leave the heading (and the
remembered start/target headings) in `[0, 360)`. -/
theorem heading_normalized_amended (o : Trig) (obstacles : List Rect)
    (x y a : ℚ) (v : Vehicle) (ha0 : 0 ≤ a) (ha1 : a < 360)
    (hv : headingInv v) :
    headingInv (mkVehicle x y a) ∧ headingInv v.reset ∧
      headingInv (update o obstacles v) := by
  refine ⟨⟨ha0, ha1, ha0, ha1, fun b hb => nomatch hb⟩, ?_, ?_⟩
  · exact ⟨hv.2.2.1, hv.2.2.2.1, hv.2.2.1, hv.2.2.2.1, fun b hb => nomatch hb⟩
  · unfold update
    cases hst : v.state
    · exact hv
    · exact updateMoving_headingInv o v hv
    · exact updateRotating_headingInv v hv
    · exact updateParking_headingInv o obstacles v hv
    · exact updateReturning_headingInv o v hv

/-- Witness for C8 (amended) at a concrete vehicle with heading 90. -/
theorem heading_normalized_amended_witness :
    0 ≤ (update oZero [] (mkVehicle 0 0 90)).angle ∧
      (update oZero [] (mkVehicle 0 0 90)).angle < 360 := by
  obtain ⟨_, _, h3⟩ := heading_normalized_amended oZero [] 0 0 90
    (mkVehicle 0 0 90) (by norm_num) (by norm_num)
    ⟨by norm_num [mkVehicle], by norm_num [mkVehicle], by norm_num [mkVehicle],
     by norm_num [mkVehicle], fun b hb => nomatch hb⟩
  exact ⟨h3.1, h3.2.1⟩

/-- Counterexample to C8 as stated: constructing a vehicle with angle 400
leaves the heading at 400, outside `[0, 360)` — `Vehicle.__init__` does not
normalize. -/
theorem heading_unnormalized_at_construction :
    (mkVehicle 0 0 400).angle = 400 ∧ ¬ ((mkVehicle 0 0 400).angle < 360) := by
  constructor
  · rfl
  · show ¬ ((400 : ℚ) < 360)
    norm_num

end Veh

namespace PSim

/-- Models `spot["type"]` of `parking.py`. -/
inductive SpotKind where
  | parallel
  | perpendicular
deriving DecidableEq, Repr

/-- Models `spot["orientation"]` of `parking.py`. -/
inductive SpotOrient where
  | horizontal
  | vertical
deriving DecidableEq, Repr

/-- A parking spot record of `parking.py`. -/
structure PSpot where
  rect : Rect
  kind : SpotKind
  orient : SpotOrient
deriving DecidableEq, Repr

/-- Models `ParkingSimulation.calculate_entry_point` (`parking.py`). -/
def calculateEntryPoint (s : PSpot) : Int × Int :=
  match s.kind, s.orient with
  | .parallel, .horizontal => (s.rect.left - 50, s.rect.centery)
  | .parallel, .vertical => (s.rect.centerx, s.rect.top - 50)
  | .perpendicular, .horizontal => (s.rect.centerx, s.rect.top - 70)
  | .perpendicular, .vertical => (s.rect.left - 70, s.rect.centery)

/-- Models `ParkingSimulation.add_parking_maneuver` (`parking.py`). -/
def addParkingManeuver (entry : Int × Int) (s : PSpot) : List (Int × Int) :=
  match s.kind, s.orient with
  | .parallel, .horizontal =>
    [entry, (s.rect.left + 30, s.rect.centery), (s.rect.centerx, s.rect.centery)]
  | .parallel, .vertical =>
    [entry, (s.rect.centerx, s.rect.top + 30), (s.rect.centerx, s.rect.centery)]
  | .perpendicular, .horizontal =>
    [entry, (s.rect.centerx, s.rect.top + 30), (s.rect.centerx, s.rect.centery)]
  | .perpendicular, .vertical =>
    [entry, (s.rect.left + 30, s.rect.centery), (s.rect.centerx, s.rect.centery)]

/-- The simulation state of `parking.py`'s `ParkingSimulation` (rendering
fields omitted; the vehicle is summarised by its pose at spot-search time —
integer-valued in the runs modelled, since searches happen at the start pose —
and by the path/state handed over on success). -/
structure SimState where
  width : Nat
  height : Nat
  vehicleX : Int
  vehicleY : Int
  vehiclePath : List (Int × Int)
  vehicleParking : Bool
  obstacles : List Rect
  parkingSpots : List PSpot
  currentAttempt : Nat
  maxAttempts : Nat
  status : String
  activeSpot : Option PSpot
deriving DecidableEq, Repr

/-- One iteration of the nearest-spot loop of `find_parking_spot`: strict `<`
against the running minimum (initially `inf`, modelled by `none`), so the
first-encountered minimum wins.  `utils.distance` computes
`sqrt((cx-vx)^2 + (cy-vy)^2)`; the square sum is integer-valued and `sqrtO`
models `math.sqrt`. -/
def nearestSpotStep (sqrtO : ℚ → ℚ) (pos : Int × Int)
    (acc : Option (PSpot × ℚ)) (spot : PSpot) : Option (PSpot × ℚ) :=
  let d := sqrtO (((spot.rect.centerx - pos.1) ^ 2 +
    (spot.rect.centery - pos.2) ^ 2 : Int) : ℚ)
  match acc with
  | none => some (spot, d)
  | some (bs, bd) => if d < bd then some (spot, d) else some (bs, bd)

/-- The nearest-spot selection of `find_parking_spot`. -/
def nearestSpot (sqrtO : ℚ → ℚ) (pos : Int × Int) (spots : List PSpot) :
    Option PSpot :=
  (spots.foldl (nearestSpotStep sqrtO pos) none).map Prod.fst

/-- Models `ParkingSimulation.find_parking_spot` (`parking.py`).  Outer `none` means
the inner pathfinding ran out of fuel (model artifact); otherwise
`some (st, flag)` carries the updated state and the Python return value.
Note: the function keeps NO record of failed spots — there is no failed-set
anywhere in `parking.py`. -/
def findParkingSpot (sqrtO : ℚ → ℚ) (fuel : Nat) (st : SimState) :
    Option (SimState × Bool) :=
  if st.currentAttempt ≥ st.maxAttempts then
    some ({ st with status := "No parking available after 3 attempts" }, false)
  else
    match nearestSpot sqrtO (st.vehicleX, st.vehicleY) st.parkingSpots with
    | none => some ({ st with status := "No valid parking spots found" }, false)
    | some spot =>
      let st1 : SimState :=
        { st with activeSpot := some spot,
                  currentAttempt := st.currentAttempt + 1 }
      let obs := st.obstacles ++
        (st.parkingSpots.filter (fun s => s != spot)).map PSpot.rect
      match PathFinder.findPath ⟨st.width, st.height, 20⟩
          (st.vehicleX, st.vehicleY) (calculateEntryPoint spot) obs fuel with
      | none => none
      | some [] =>
        some ({ st1 with status := "No valid parking spots found" }, false)
      | some (w :: ws) =>
        let fullPath := addParkingManeuver ((w :: ws).getLast (List.cons_ne_nil w ws)) spot
        some ({ st1 with vehiclePath := fullPath, vehicleParking := true,
                         status := "Attempting parking in spot " ++
                           toString st1.currentAttempt ++ "/" ++
                           toString st1.maxAttempts }, true)

/-- C3 (amended): when attempts remain, a nearest spot exists, and the
pathfinder returns the empty path for it, `find_parking_spot` has already
incremented the attempt counter and recorded the spot as active, returns
failure without marking anything as failed, and the next selection — run when
the vehicle is idle on a later tick, from the unchanged pose and spot list —
picks the same nearest spot again. -/
theorem findParkingSpot_path_empty_behavior (sqrtO : ℚ → ℚ) (fuel : Nat)
    (st : SimState) (spot : PSpot)
    (hatt : st.currentAttempt < st.maxAttempts)
    (hsel : nearestSpot sqrtO (st.vehicleX, st.vehicleY) st.parkingSpots = some spot)
    (hpath : PathFinder.findPath ⟨st.width, st.height, 20⟩
        (st.vehicleX, st.vehicleY) (calculateEntryPoint spot)
        (st.obstacles ++ (st.parkingSpots.filter (fun s => s != spot)).map PSpot.rect)
        fuel = some []) :
    (findParkingSpot sqrtO fuel st).map
        (fun r => (r.2, r.1.currentAttempt, r.1.activeSpot)) =
      some (false, st.currentAttempt + 1, some spot) ∧
    (findParkingSpot sqrtO fuel st).map
        (fun r => nearestSpot sqrtO (r.1.vehicleX, r.1.vehicleY) r.1.parkingSpots) =
      some (some spot) := by
  unfold findParkingSpot
  rw [if_neg (by omega), hsel]
  dsimp only
  rw [hpath]
  dsimp only
  refine ⟨rfl, ?_⟩
  simp only [Option.map_some']
  rw [hsel]

/-- A spot whose entry point `(left-50, centery) = (-20, 100)` converts to the
out-of-bounds grid cell `(-1, 5)`, so the pathfinder returns empty for it. -/
def spotC3a : PSpot := ⟨⟨30, 80, 60, 40⟩, .parallel, .horizontal⟩

/-- A second, farther eligible spot in the same world. -/
def spotC3b : PSpot := ⟨⟨150, 80, 40, 40⟩, .parallel, .horizontal⟩

/-- A concrete `parking.py` world: 200×200 window, vehicle at (100,100), two
free spots, no obstacles. -/
def stC3 : SimState :=
  { width := 200, height := 200, vehicleX := 100, vehicleY := 100,
    vehiclePath := [], vehicleParking := false, obstacles := [],
    parkingSpots := [spotC3a, spotC3b], currentAttempt := 0, maxAttempts := 3,
    status := "Ready to start", activeSpot := none }

/-- Counterexample to C3 as stated: on `stC3` the pathfinder returns empty
for the nearest spot; `find_parking_spot` increments the attempt counter and
returns `False` — but the spot is NOT marked failed (no failed-set exists) and
no retry happens inside the call; the next invocation selects the SAME
nearest spot again instead of the second-nearest `spotC3b`. -/
theorem findParkingSpot_no_failed_marking :
    (findParkingSpot id 99 stC3).map
        (fun r => (r.2, r.1.currentAttempt, r.1.activeSpot)) =
      some (false, 1, some spotC3a) ∧
    ((findParkingSpot id 99 stC3).bind (fun r => findParkingSpot id 99 r.1)).map
        (fun r => (r.1.activeSpot, r.1.currentAttempt)) =
      some (some spotC3a, 2) ∧
    spotC3b ∈ stC3.parkingSpots ∧ spotC3a ≠ spotC3b := by
  refine ⟨by decide, by decide, by decide, by decide⟩

/-- Witness for the amended C3 on the concrete world `stC3`. -/
theorem findParkingSpot_path_empty_behavior_witness :
    (findParkingSpot id 77 stC3).map
        (fun r => (r.2, r.1.currentAttempt, r.1.activeSpot)) =
      some (false, 1, some spotC3a) ∧
    (findParkingSpot id 77 stC3).map
        (fun r => nearestSpot id (r.1.vehicleX, r.1.vehicleY) r.1.parkingSpots) =
      some (some spotC3a) :=
  findParkingSpot_path_empty_behavior id 77 stC3 spotC3a (by decide) (by decide)
    (by decide)

/-- Nearest spot of the C2 counterexample world; its entry point `(90, 100)`
is reachable, so attempt 1 plans successfully and targets it. -/
def spotC2near : PSpot := ⟨⟨140, 80, 40, 40⟩, .parallel, .horizontal⟩

/-- A second, farther eligible spot in the same world. -/
def spotC2far : PSpot := ⟨⟨140, 140, 40, 40⟩, .parallel, .horizontal⟩

/-- A concrete `parking.py` world for C2: vehicle at (100,100), two free
spots, no parked cars. -/
def stC2 : SimState :=
  { width := 200, height := 200, vehicleX := 100, vehicleY := 100,
    vehiclePath := [], vehicleParking := false, obstacles := [],
    parkingSpots := [spotC2near, spotC2far], currentAttempt := 0, maxAttempts := 3,
    status := "Ready to start", activeSpot := none }

/-- Counterexample to C2 as stated, against the cited `parking.py` selector:
attempt 1 targets the nearest spot; after the attempt fails (`_update_returning`
restores the vehicle to its start pose and `update` calls `find_parking_spot`
again on the unchanged world), the second selection targets the SAME spot —
nothing records the failure, because `parking.py` has no failed-set. -/
theorem parking_py_retargets_failed_spot :
    (findParkingSpot id 99 stC2).map (fun r => (r.2, r.1.activeSpot)) =
      some (true, some spotC2near) ∧
    ((findParkingSpot id 99 stC2).bind (fun r => findParkingSpot id 99 r.1)).map
        (fun r => (r.1.activeSpot, r.1.currentAttempt)) =
      some (some spotC2near, 2) ∧
    spotC2near ≠ spotC2far ∧ spotC2far ∈ stC2.parkingSpots := by
  refine ⟨by decide, by decide, by decide, by decide⟩

end PSim

namespace MSim

/-- Models `CarState` of `main.py`. -/
inductive CarState where
  | searching
  | parking
  | parked
  | failed
deriving DecidableEq, Repr

/-- Models `ParkingType` of `main.py`. -/
inductive MParkingType where
  | parallel
  | perpendicular
deriving DecidableEq, Repr

/-- A parking-spot record of `main.py` (`{'rect': …, 'type': …}`); Python
`==`/`in` compare these structurally. -/
structure MSpot where
  rect : Rect
  ptype : MParkingType
deriving DecidableEq, Repr

/-- Squared Euclidean distance from the car to a spot's rectangle center, the
quantity under the `math.sqrt` of `find_nearest_parking_spot`. -/
def spotDist2 (carX carY : ℚ) (s : MSpot) : ℚ :=
  (carX - (s.rect.centerx : ℚ)) ^ 2 + (carY - (s.rect.centery : ℚ)) ^ 2

/-- The eligibility filter of `find_nearest_parking_spot`: drop spots whose
rectangle equals an occupied (parked-car) rectangle or that are in the
failed list. -/
def eligibleSpots (spots : List MSpot) (parkedRects : List Rect)
    (failed : List MSpot) : List MSpot :=
  spots.filter (fun s => !(parkedRects.any (fun r => r == s.rect)) &&
    !(failed.contains s))

/-- Models `ParkingSimulation.find_nearest_parking_spot` (`main.py`): filter, pair
each remaining spot with `sqrt(distance²)`, stable-sort by that distance, and
return the spot at index `min(attempt_count, count-1)`.  `sqrtO` models
`math.sqrt`; the stable sort models Python's `list.sort(key=…)`. -/
def findNearestParkingSpot (sqrtO : ℚ → ℚ) (carX carY : ℚ)
    (spots : List MSpot) (parkedRects : List Rect) (failed : List MSpot)
    (attemptCount : Nat) : Option MSpot :=
  let available := (eligibleSpots spots parkedRects failed).map
    (fun s => (s, sqrtO (spotDist2 carX carY s)))
  match available with
  | [] => none
  | a :: l =>
    ((insertionSortB (fun x y : MSpot × ℚ => decide (x.2 ≤ y.2)) (a :: l))[
        min attemptCount ((a :: l).length - 1)]?).map Prod.fst

/-- The Parking-Spot Selector as the specification states it: filter out
occupied/failed spots, sort the rest by ascending Euclidean distance from the
vehicle to the spot center (equivalently by squared distance, since `sqrt` is
strictly monotone), and pick index `min(attemptIndex, count-1)`; `none` when
no eligible spot remains. -/
def selectTargetSpec (carX carY : ℚ) (spots : List MSpot)
    (parkedRects : List Rect) (failed : List MSpot) (attemptCount : Nat) :
    Option MSpot :=
  let eligible := eligibleSpots spots parkedRects failed
  match eligible with
  | [] => none
  | a :: l =>
    (insertionSortB (fun x y : MSpot =>
        decide (spotDist2 carX carY x ≤ spotDist2 carX carY y)) (a :: l))[
      min attemptCount ((a :: l).length - 1)]?

theorem orderedInsertB_pairs (f : MSpot → ℚ) (a : MSpot) :
    ∀ l : List MSpot,
      orderedInsertB (fun x y : MSpot × ℚ => decide (x.2 ≤ y.2)) (a, f a)
          (l.map (fun s => (s, f s))) =
        (orderedInsertB (fun x y : MSpot => decide (f x ≤ f y)) a l).map
          (fun s => (s, f s))
  | [] => rfl
  | b :: l => by
    simp only [List.map_cons, orderedInsertB]
    by_cases hc : decide (f a ≤ f b) = true
    · rw [if_pos hc, if_pos hc]
      simp
    · rw [if_neg hc, if_neg hc]
      rw [orderedInsertB_pairs f a l]
      simp

theorem insertionSortB_pairs (f : MSpot → ℚ) :
    ∀ l : List MSpot,
      insertionSortB (fun x y : MSpot × ℚ => decide (x.2 ≤ y.2))
          (l.map (fun s => (s, f s))) =
        (insertionSortB (fun x y : MSpot => decide (f x ≤ f y)) l).map
          (fun s => (s, f s))
  | [] => rfl
  | a :: l => by
    simp only [List.map_cons, insertionSortB]
    rw [show (insertionSortB (fun x y : MSpot × ℚ => decide (x.2 ≤ y.2))
        (l.map (fun s => (s, f s)))) =
      (insertionSortB (fun x y : MSpot => decide (f x ≤ f y)) l).map
        (fun s => (s, f s)) from insertionSortB_pairs f l]
    exact orderedInsertB_pairs f a _

/-- Models `insertionSortB_pairs`, stated on the cons-shape left after the match
reduction. -/
theorem insertionSortB_pairs_cons (f : MSpot → ℚ) (e : MSpot) (es : List MSpot) :
    insertionSortB (fun x y : MSpot × ℚ => decide (x.2 ≤ y.2))
        ((e, f e) :: es.map (fun s => (s, f s))) =
      (insertionSortB (fun x y : MSpot => decide (f x ≤ f y)) (e :: es)).map
        (fun s => (s, f s)) := by
  have h := insertionSortB_pairs f (e :: es)
  simpa [List.map_cons] using h

/-- C6: under any order-preserving model of `math.sqrt`, the selector of
`main.py` coincides with the specification's selector (sorting by the actual
distance sorts by the squared distance). -/
theorem findNearestParkingSpot_eq_spec (sqrtO : ℚ → ℚ) (carX carY : ℚ)
    (spots : List MSpot) (parkedRects : List Rect) (failed : List MSpot)
    (attemptCount : Nat)
    (hmono : ∀ a b : ℚ, 0 ≤ a → 0 ≤ b → (sqrtO a ≤ sqrtO b ↔ a ≤ b)) :
    findNearestParkingSpot sqrtO carX carY spots parkedRects failed attemptCount =
      selectTargetSpec carX carY spots parkedRects failed attemptCount := by
  unfold findNearestParkingSpot selectTargetSpec
  have hd2 : ∀ s : MSpot, 0 ≤ spotDist2 carX carY s := by
    intro s
    unfold spotDist2
    positivity
  have hcmp : (fun x y : MSpot =>
      decide (sqrtO (spotDist2 carX carY x) ≤ sqrtO (spotDist2 carX carY y))) =
      (fun x y : MSpot =>
        decide (spotDist2 carX carY x ≤ spotDist2 carX carY y)) := by
    funext x y
    exact decide_eq_decide.mpr (hmono _ _ (hd2 x) (hd2 y))
  rcases hel : eligibleSpots spots parkedRects failed with _ | ⟨e, es⟩
  · rfl
  · simp only [List.map_cons]
    rw [insertionSortB_pairs_cons (fun s => sqrtO (spotDist2 carX carY s)) e es]
    rw [hcmp]
    rw [List.getElem?_map]
    simp [Option.map_map, Function.comp_def, List.length_map]

/-- Witness for C6: the theorem applied to a concrete world with the identity
as (order-preserving) square-root model. -/
theorem findNearestParkingSpot_eq_spec_witness :
    findNearestParkingSpot id 100 400
        [⟨⟨800, 100, 60, 40⟩, .parallel⟩, ⟨⟨200, 100, 60, 40⟩, .parallel⟩]
        [⟨800, 100, 60, 40⟩] [] 0 =
      selectTargetSpec 100 400
        [⟨⟨800, 100, 60, 40⟩, .parallel⟩, ⟨⟨200, 100, 60, 40⟩, .parallel⟩]
        [⟨800, 100, 60, 40⟩] [] 0 :=
  findNearestParkingSpot_eq_spec id 100 400 _ _ _ 0
    (fun _ _ _ _ => Iff.rfl)

theorem getElem?_map_fst {α β : Type} (l : List (α × β)) (i : Nat) (t : α)
    (h : (l[i]?).map Prod.fst = some t) : ∃ d, (t, d) ∈ l := by
  rcases hopt : l[i]? with _ | pr
  · rw [hopt] at h
    simp at h
  · rw [hopt] at h
    simp only [Option.map_some', Option.some.injEq] at h
    refine ⟨pr.2, ?_⟩
    rw [← h]
    exact List.getElem?_mem hopt

/-- What the selector returns was never in the failed list: the filter drops
every spot of `failed`. -/
theorem findNearestParkingSpot_not_failed (sqrtO : ℚ → ℚ) (carX carY : ℚ)
    (spots : List MSpot) (parkedRects : List Rect) (failed : List MSpot)
    (attemptCount : Nat) (t : MSpot)
    (h : findNearestParkingSpot sqrtO carX carY spots parkedRects failed
        attemptCount = some t) : t ∉ failed := by
  unfold findNearestParkingSpot at h
  rcases hel : eligibleSpots spots parkedRects failed with _ | ⟨e, es⟩ <;>
    rw [hel] at h
  · simp at h
  · simp only [List.map_cons] at h
    obtain ⟨d, hmem⟩ := getElem?_map_fst _ _ _ h
    have hmem2 := mem_insertionSortB _ _ _ hmem
    rw [show ((e, sqrtO (spotDist2 carX carY e)) ::
        es.map (fun s => (s, sqrtO (spotDist2 carX carY s)))) =
      (e :: es).map (fun s => (s, sqrtO (spotDist2 carX carY s))) from rfl] at hmem2
    rcases List.mem_map.mp hmem2 with ⟨s, hs, hpair⟩
    obtain ⟨rfl, -⟩ := Prod.mk.injEq .. ▸ hpair
    rw [← hel] at hs
    have := (List.mem_filter.mp hs).2
    simp only [Bool.and_eq_true, Bool.not_eq_true'] at this
    intro hcontra
    have hc := this.2
    simp at hc
    exact hc hcontra

/-- The per-tick oracle inputs of the `main.py` loop: the pose after
`AutonomousCar.move` (trigonometric kinematics abstracted), whether the
phase-based maneuver declares the car parked this tick, and whether
`check_collision` fires. -/
structure MTick where
  newX : ℚ
  newY : ℚ
  parkDone : Bool
  collide : Bool

/-- The orchestration state of `main.py`'s run loop (`AutonomousCar` fields
that drive the attempt logic, plus the ghost `targeted` trace recording, in
order, every spot assigned as target). -/
structure MState where
  carState : CarState
  carX : ℚ
  carY : ℚ
  attemptCount : Nat
  targetSpot : Option MSpot
  failedSpots : List MSpot
  targeted : List MSpot

/-- The state-dependent branch of one non-paused loop iteration of
`ParkingSimulation.run` (`main.py`): in `SEARCHING`, select a target (and go
to `PARKING`) or, failing that, either give up after 3 attempts or bump the
counter, append the stale target to the failed list and reset the pose; in
`PARKING`, the phase-based maneuver may finish (`PARKED`). -/
def mstepPhase (sqrtO : ℚ → ℚ) (spots : List MSpot) (parkedRects : List Rect)
    (parkDone : Bool) (st : MState) : MState :=
  match st.carState with
  | .searching =>
    match findNearestParkingSpot sqrtO st.carX st.carY spots parkedRects
        st.failedSpots st.attemptCount with
    | some tgt =>
      { st with targetSpot := some tgt, carState := .parking,
                targeted := st.targeted ++ [tgt] }
    | none =>
      if st.attemptCount ≥ 3 then { st with carState := .failed }
      else
        { st with attemptCount := st.attemptCount + 1,
                  failedSpots := st.failedSpots ++ st.targetSpot.toList,
                  carX := 100, carY := 400 }
  | .parking => if parkDone then { st with carState := .parked } else st
  | _ => st

/-- The collision branch at the end of a loop iteration: append the current
target to the failed list, return to `SEARCHING`, bump the attempt counter and
reset the pose. -/
def mstepCollision (st : MState) : MState :=
  { st with failedSpots := st.failedSpots ++ st.targetSpot.toList,
            carState := .searching, attemptCount := st.attemptCount + 1,
            carX := 100, carY := 400 }

/-- One non-paused iteration of `ParkingSimulation.run`: state branch, then
`car.move()` (pose from the tick oracle), then the collision check. -/
def mstep (sqrtO : ℚ → ℚ) (spots : List MSpot) (parkedRects : List Rect)
    (t : MTick) (st : MState) : MState :=
  let st1 := mstepPhase sqrtO spots parkedRects t.parkDone st
  let st2 : MState := { st1 with carX := t.newX, carY := t.newY }
  if t.collide then mstepCollision st2 else st2

/-- Models `AutonomousCar(100, WINDOW_HEIGHT//2)` at simulation start. -/
def minit : MState :=
  { carState := .searching, carX := 100, carY := 400, attemptCount := 0,
    targetSpot := none, failedSpots := [], targeted := [] }

/-- The `main.py` run loop from the initial state through a list of ticks. -/
def mrun (sqrtO : ℚ → ℚ) (spots : List MSpot) (parkedRects : List Rect)
    (ticks : List MTick) : MState :=
  ticks.foldl (fun st t => mstep sqrtO spots parkedRects t st) minit

/-- The no-repeat invariant: the targeted trace has no duplicates, every
targeted spot is the current target or already failed, and in `SEARCHING` any
lingering target is already failed. -/
def MInv (st : MState) : Prop :=
  st.targeted.Nodup ∧
  (∀ s ∈ st.targeted, st.targetSpot = some s ∨ s ∈ st.failedSpots) ∧
  (st.carState = .searching → ∀ s, st.targetSpot = some s → s ∈ st.failedSpots)

theorem mstepPhase_MInv (sqrtO : ℚ → ℚ) (spots : List MSpot)
    (parkedRects : List Rect) (parkDone : Bool) (st : MState) (h : MInv st) :
    MInv (mstepPhase sqrtO spots parkedRects parkDone st) := by
  obtain ⟨hnd, hcov, hsea⟩ := h
  unfold mstepPhase
  cases hcs : st.carState
  · rcases hsel : findNearestParkingSpot sqrtO st.carX st.carY spots parkedRects
        st.failedSpots st.attemptCount with _ | tgt
    · dsimp only
      split
      · exact ⟨hnd, hcov, fun habs => nomatch habs⟩
      · refine ⟨hnd, ?_, ?_⟩
        · intro s hs
          rcases hcov s hs with hc | hc
          · exact Or.inl hc
          · exact Or.inr (List.mem_append_left _ hc)
        · intro _ s hts
          have hts2 : st.targetSpot = some s := hts
          refine List.mem_append_right _ ?_
          rw [hts2]
          simp
    · dsimp only
      have htf : tgt ∉ st.failedSpots :=
        findNearestParkingSpot_not_failed _ _ _ _ _ _ _ _ hsel
      have hsub : ∀ s ∈ st.targeted, s ∈ st.failedSpots := by
        intro s hs
        rcases hcov s hs with hc | hc
        · exact hsea hcs s hc
        · exact hc
      refine ⟨?_, ?_, fun habs => nomatch habs⟩
      · rw [List.nodup_append]
        refine ⟨hnd, List.nodup_singleton _, ?_⟩
        intro s hs hs2
        rw [List.mem_singleton.mp hs2] at hs
        exact htf (hsub tgt hs)
      · intro s hs
        rcases List.mem_append.mp hs with hc | hc
        · exact Or.inr (hsub s hc)
        · rw [List.mem_singleton.mp hc]
          exact Or.inl rfl
  · dsimp only
    split
    · exact ⟨hnd, hcov, fun habs => nomatch habs⟩
    · exact ⟨hnd, hcov, fun habs => nomatch (hcs ▸ habs)⟩
  · exact ⟨hnd, hcov, hsea⟩
  · exact ⟨hnd, hcov, hsea⟩

theorem mstepCollision_MInv (st : MState) (h : MInv st) :
    MInv (mstepCollision st) := by
  obtain ⟨hnd, hcov, _⟩ := h
  refine ⟨hnd, ?_, ?_⟩
  · intro s hs
    rcases hcov s hs with hc | hc
    · exact Or.inl hc
    · exact Or.inr (List.mem_append_left _ hc)
  · intro _ s hts
    have hts2 : st.targetSpot = some s := hts
    refine List.mem_append_right _ ?_
    rw [hts2]
    simp

theorem mstep_MInv (sqrtO : ℚ → ℚ) (spots : List MSpot)
    (parkedRects : List Rect) (t : MTick) (st : MState) (h : MInv st) :
    MInv (mstep sqrtO spots parkedRects t st) := by
  unfold mstep
  dsimp only
  have h1 := mstepPhase_MInv sqrtO spots parkedRects t.parkDone st h
  have h2 : MInv { mstepPhase sqrtO spots parkedRects t.parkDone st with
      carX := t.newX, carY := t.newY } := ⟨h1.1, h1.2.1, h1.2.2⟩
  split
  · exact mstepCollision_MInv _ h2
  · exact h2

theorem mrun_MInv (sqrtO : ℚ → ℚ) (spots : List MSpot)
    (parkedRects : List Rect) (ticks : List MTick) :
    MInv (mrun sqrtO spots parkedRects ticks) := by
  unfold mrun
  refine foldl_preserve ticks minit ?_ ?_
  · intro t _ s hs
    exact mstep_MInv sqrtO spots parkedRects t s hs
  · refine ⟨?_, ?_, ?_⟩ <;> simp [minit]

/-- C2 (amended): in the `main.py` orchestrator, where failed spots ARE
recorded (`AutonomousCar.failed_spots`) and the selector excludes them, no
two attempts in a run ever target the same spot — for any world, any
square-root model and any tick oracle.  (The cited `parking.py` selector has
no failed-set; `PSim.parking_py_retargets_failed_spot` shows it re-targets
a failed spot.) -/
theorem main_run_never_retargets (sqrtO : ℚ → ℚ) (spots : List MSpot)
    (parkedRects : List Rect) (ticks : List MTick) :
    (mrun sqrtO spots parkedRects ticks).targeted.Nodup :=
  (mrun_MInv sqrtO spots parkedRects ticks).1

end MSim

end AutoPark
